import Mathlib

/-!
Shallow embedding of the recovery engine of the error-forge repository:
backoff delay computation (src/recovery/backoff.rs), the retry executor
(src/recovery/retry.rs) and the circuit breaker state machine
(src/recovery/circuit_breaker.rs).

Modelling conventions:
* Rust `Instant` and `Duration` values are natural numbers of milliseconds;
  `Instant` subtraction (`duration_since`, `now - window`) is truncated
  subtraction on naturals, matching the saturating behaviour on monotone
  clocks.
* Rust `u64` arithmetic that can wrap is taken modulo 2 ^ 64; the Rust
  `as u64` cast from `f64` truncates toward zero and saturates into
  [0, 2 ^ 64 - 1].
* `f64` values are modelled as rationals with exact arithmetic; the claims
  settled below only use configurations on which `f64` computes exactly, or
  bounds that are insensitive to rounding.
* The randomness used by jitter (`rand::thread_rng().gen_range(0.8..1.2)`)
  is an explicit input: `next_delay` receives the drawn factor as an extra
  argument, and theorems that involve jitter quantify over draws in
  [0.8, 1.2).
* The callback passed to `RetryExecutor::retry` is modelled as a function
  from the invocation index to the outcome of that invocation; the callback
  passed to `CircuitBreaker::execute` is invoked at most once, so it is
  modelled as the single outcome value.
-/

namespace ErrorForge

/-- Largest value of a Rust u64. -/
def U64_MAX : ℕ := 2 ^ 64 - 1

/-- Rust cast `x as u64` applied to an f64 value (here a rational):
truncation toward zero, saturating into [0, U64_MAX]; negative values map
to 0 via `Int.toNat`. -/
def f64_as_u64 (q : ℚ) : ℕ := min (⌊q⌋.toNat) U64_MAX

/-- Rust cast `n as i32` applied to a usize: the value is truncated to
32 bits and reinterpreted as a signed two-complement integer. -/
def usize_as_i32 (n : ℕ) : ℤ :=
  if n % 2 ^ 32 < 2 ^ 31 then ((n % 2 ^ 32 : ℕ) : ℤ)
  else ((n % 2 ^ 32 : ℕ) : ℤ) - 2 ^ 32

/-- Exponential backoff strategy with optional jitter
(struct ExponentialBackoff in src/recovery/backoff.rs). -/
structure ExponentialBackoff where
  initial_delay_ms : ℕ
  max_delay_ms : ℕ
  factor : ℚ
  jitter : Bool
deriving Repr, DecidableEq

/-- Defaults of ExponentialBackoff::new: initial 100ms, max 30000ms,
factor 2.0, jitter disabled. -/
def ExponentialBackoff.new : ExponentialBackoff :=
  ⟨100, 30000, 2, false⟩

/-- ExponentialBackoff::next_delay. The source computes
`factor.powi(attempt as i32)`, multiplies by the initial delay, casts to
u64, caps at the max delay, and, when jitter is enabled, multiplies by the
drawn factor and casts again. -/
def ExponentialBackoff.next_delay (b : ExponentialBackoff) (attempt : ℕ)
    (jitter_factor : ℚ) : ℕ :=
  if attempt = 0 then b.initial_delay_ms
  else
    let exp_factor : ℚ := b.factor ^ usize_as_i32 attempt
    let calculated_delay := f64_as_u64 ((b.initial_delay_ms : ℚ) * exp_factor)
    let capped_delay := min calculated_delay b.max_delay_ms
    if b.jitter then f64_as_u64 ((capped_delay : ℚ) * jitter_factor)
    else capped_delay

/-- Linear backoff strategy (struct LinearBackoff in
src/recovery/backoff.rs). -/
structure LinearBackoff where
  initial_delay_ms : ℕ
  increment_ms : ℕ
  max_delay_ms : ℕ
deriving Repr, DecidableEq

/-- Defaults of LinearBackoff::new: initial 100ms, increment 100ms,
max 10000ms. -/
def LinearBackoff.new : LinearBackoff := ⟨100, 100, 10000⟩

/-- LinearBackoff::next_delay: `min(initial + attempt * increment, max)`,
with the u64 addition and multiplication taken modulo 2 ^ 64. -/
def LinearBackoff.next_delay (b : LinearBackoff) (attempt : ℕ) : ℕ :=
  let delay_ms := (b.initial_delay_ms + attempt * b.increment_ms) % 2 ^ 64
  min delay_ms b.max_delay_ms

/-- Fixed backoff strategy (struct FixedBackoff in
src/recovery/backoff.rs). -/
structure FixedBackoff where
  delay_ms : ℕ
deriving Repr, DecidableEq

/-- FixedBackoff::new. -/
def FixedBackoff.new (delay_ms : ℕ) : FixedBackoff := ⟨delay_ms⟩

/-- FixedBackoff::next_delay: the configured delay, independent of the
attempt. -/
def FixedBackoff.next_delay (b : FixedBackoff) (_attempt : ℕ) : ℕ :=
  b.delay_ms

/-- Enum BackoffStrategy from src/recovery/retry.rs. -/
inductive BackoffStrategy where
  | Exponential (b : ExponentialBackoff)
  | Linear (b : LinearBackoff)
  | Fixed (b : FixedBackoff)
deriving Repr, DecidableEq

/-- BackoffStrategy::next_delay dispatches on the variant; the jitter draw
is only consulted by the exponential strategy. -/
def BackoffStrategy.next_delay : BackoffStrategy → ℕ → ℚ → ℕ
  | .Exponential b, attempt, jf => b.next_delay attempt jf
  | .Linear b, attempt, _ => b.next_delay attempt
  | .Fixed b, attempt, _ => b.next_delay attempt

/-- Struct RetryExecutor from src/recovery/retry.rs: a retry budget, a
backoff strategy and an optional retryability predicate. -/
structure RetryExecutor (E : Type) where
  max_retries : ℕ
  backoff : BackoffStrategy
  retry_if : Option (E → Bool)

/-- RetryExecutor::new_exponential: max_retries 3, default exponential
backoff, no predicate. -/
def RetryExecutor.new_exponential (E : Type) : RetryExecutor E :=
  ⟨3, .Exponential .new, none⟩

/-- RetryExecutor::new_linear: max_retries 3, default linear backoff, no
predicate. -/
def RetryExecutor.new_linear (E : Type) : RetryExecutor E :=
  ⟨3, .Linear .new, none⟩

/-- RetryExecutor::new_fixed: max_retries 3, fixed backoff with the given
delay, no predicate. -/
def RetryExecutor.new_fixed (E : Type) (delay_ms : ℕ) : RetryExecutor E :=
  ⟨3, .Fixed (.new delay_ms), none⟩

/-- RetryExecutor::with_max_retries. -/
def RetryExecutor.with_max_retries {E : Type} (ex : RetryExecutor E)
    (n : ℕ) : RetryExecutor E :=
  { ex with max_retries := n }

/-- RetryExecutor::with_retry_if. -/
def RetryExecutor.with_retry_if {E : Type} (ex : RetryExecutor E)
    (p : E → Bool) : RetryExecutor E :=
  { ex with retry_if := some p }

/-- Observable outcome of one RetryExecutor::retry call: the returned
result, the total number of invocations of the operation, and the list of
delays slept between attempts (in order). -/
structure RetryResult (T E : Type) where
  result : Except E T
  invocations : ℕ
  delays : List ℕ
deriving Repr

/-- Loop body of RetryExecutor::retry. The source iterates with a mutable
counter `attempt` starting at 0 and exits on success, on
`attempt >= max_retries` after a failure, or on a predicate rejection;
otherwise it sleeps for `backoff.next_delay(attempt)` and increments
`attempt`. Here the guard `attempt >= max_retries` is represented by the
fuel `retries_left = max_retries - attempt`, which reaches 0 exactly when
the guard fires, since every iteration increments `attempt` by one.
`op i` is the outcome of the i-th invocation and `jitters i` the jitter
factor drawn during attempt i (unused unless the strategy has jitter). -/
def retryGo {E T : Type} (pred : Option (E → Bool)) (strat : BackoffStrategy)
    (op : ℕ → Except E T) (jitters : ℕ → ℚ) : ℕ → ℕ → RetryResult T E
  | attempt, 0 =>
    match op attempt with
    | .ok v => ⟨.ok v, attempt + 1, []⟩
    | .error e => ⟨.error e, attempt + 1, []⟩
  | attempt, r + 1 =>
    match op attempt with
    | .ok v => ⟨.ok v, attempt + 1, []⟩
    | .error e =>
      let should_retry := match pred with
        | some p => p e
        | none => true
      if should_retry then
        let d := strat.next_delay attempt (jitters attempt)
        let rest := retryGo pred strat op jitters (attempt + 1) r
        ⟨rest.result, rest.invocations, d :: rest.delays⟩
      else ⟨.error e, attempt + 1, []⟩

/-- RetryExecutor::retry, expressed through the fuelled loop: the loop
starts with `attempt = 0`, so the fuel starts at `max_retries`. -/
def RetryExecutor.retry {E T : Type} (ex : RetryExecutor E)
    (op : ℕ → Except E T) (jitters : ℕ → ℚ) : RetryResult T E :=
  retryGo ex.retry_if ex.backoff op jitters 0 ex.max_retries

/-- Enum BackoffType from src/recovery/retry.rs. -/
inductive BackoffType where
  | Exponential
  | Linear
  | Fixed (delay_ms : ℕ)
deriving Repr, DecidableEq

/-- Struct RetryPolicy from src/recovery/retry.rs. -/
structure RetryPolicy where
  max_retries : ℕ
  backoff_type : BackoffType
deriving Repr, DecidableEq

/-- RetryPolicy::new_exponential. -/
def RetryPolicy.new_exponential : RetryPolicy := ⟨3, .Exponential⟩

/-- RetryPolicy::new_linear. -/
def RetryPolicy.new_linear : RetryPolicy := ⟨3, .Linear⟩

/-- RetryPolicy::new_fixed. -/
def RetryPolicy.new_fixed (delay_ms : ℕ) : RetryPolicy := ⟨3, .Fixed delay_ms⟩

/-- RetryPolicy::with_max_retries. -/
def RetryPolicy.with_max_retries (p : RetryPolicy) (n : ℕ) : RetryPolicy :=
  { p with max_retries := n }

/-- RetryPolicy::executor: build the executor matching the backoff type,
then override its max_retries with the policy value. -/
def RetryPolicy.executor (p : RetryPolicy) (E : Type) : RetryExecutor E :=
  (match p.backoff_type with
    | .Exponential => RetryExecutor.new_exponential E
    | .Linear => RetryExecutor.new_linear E
    | .Fixed delay_ms => RetryExecutor.new_fixed E delay_ms).with_max_retries
    p.max_retries

/-- Enum CircuitState from src/recovery/circuit_breaker.rs. -/
inductive CircuitState where
  | Closed
  | Open
  | HalfOpen
deriving Repr, DecidableEq

/-- Struct CircuitBreakerConfig. -/
structure CircuitBreakerConfig where
  failure_threshold : ℕ
  failure_window_ms : ℕ
  reset_timeout_ms : ℕ
deriving Repr, DecidableEq

/-- CircuitBreakerConfig::default: threshold 5, window 60000ms, reset
timeout 30000ms. -/
def CircuitBreakerConfig.default : CircuitBreakerConfig :=
  ⟨5, 60000, 30000⟩

/-- Struct CircuitBreakerInner: the state behind the mutex, with instants
as natural milliseconds. -/
structure CircuitBreakerInner where
  config : CircuitBreakerConfig
  state : CircuitState
  failures : List ℕ
  last_state_change : ℕ
deriving Repr, DecidableEq

/-- CircuitBreaker::update_state, evaluated at instant `now`: while Open,
once `reset_timeout_ms` has elapsed since the last state change, move to
HalfOpen and stamp the transition time. -/
def CircuitBreakerInner.update_state (inner : CircuitBreakerInner)
    (now : ℕ) : CircuitBreakerInner :=
  if inner.state = .Open ∧
      inner.config.reset_timeout_ms ≤ now - inner.last_state_change then
    { inner with state := .HalfOpen, last_state_change := now }
  else inner

/-- CircuitBreaker::on_success, evaluated at instant `now`: only a
HalfOpen breaker reacts, closing the circuit and clearing the failure
history. -/
def CircuitBreakerInner.on_success (inner : CircuitBreakerInner)
    (now : ℕ) : CircuitBreakerInner :=
  if inner.state = .HalfOpen then
    { inner with state := .Closed, failures := [], last_state_change := now }
  else inner

/-- CircuitBreaker::on_failure, evaluated at instant `now`: a HalfOpen
breaker reopens immediately (failure list untouched); otherwise the
failure instant is pushed, entries older than the window are dropped, and
a Closed breaker whose pruned count reaches the threshold trips to
Open. -/
def CircuitBreakerInner.on_failure (inner : CircuitBreakerInner)
    (now : ℕ) : CircuitBreakerInner :=
  if inner.state = .HalfOpen then
    { inner with state := .Open, last_state_change := now }
  else
    let window_start := now - inner.config.failure_window_ms
    let failures :=
      (inner.failures ++ [now]).filter (fun t => window_start ≤ t)
    if inner.state = .Closed ∧
        inner.config.failure_threshold ≤ failures.length then
      { inner with
          state := .Open
          failures := failures
          last_state_change := now }
    else { inner with failures := failures }

/-- CircuitBreaker::reset: back to Closed with an empty failure history. -/
def CircuitBreakerInner.reset (inner : CircuitBreakerInner)
    (now : ℕ) : CircuitBreakerInner :=
  { inner with state := .Closed, failures := [], last_state_change := now }

/-- Pre-check block of CircuitBreaker::execute: under the lock, run
update_state and read whether the (possibly updated) state is not Open.
Returns the can_proceed flag and the state after the pre-check. -/
def can_proceed (inner : CircuitBreakerInner) (now : ℕ) :
    Bool × CircuitBreakerInner :=
  let inner1 := inner.update_state now
  (if inner1.state = .Open then false else true, inner1)

/-- Result of one CircuitBreaker::execute call: the operation value, the
operation error (boxed in the source), or the distinguished
CircuitOpenError carrying the breaker name. -/
inductive ExecResult (T E : Type) where
  | ok (value : T)
  | opError (e : E)
  | circuitOpen (circuit_name : String)
deriving Repr, DecidableEq

/-- CircuitBreaker::execute: pre-check at instant `t_pre` (update_state
then the Open test); when the circuit is Open, fail fast with
CircuitOpenError(name) and do not consult the operation; otherwise the
operation runs exactly once and its outcome is routed to
on_success/on_failure at instant `t_post`. -/
def execute {E T : Type} (name : String) (inner : CircuitBreakerInner)
    (op : Except E T) (t_pre t_post : ℕ) :
    ExecResult T E × CircuitBreakerInner :=
  let pre := can_proceed inner t_pre
  if pre.1 then
    match op with
    | .ok v => (.ok v, pre.2.on_success t_post)
    | .error e => (.opError e, pre.2.on_failure t_post)
  else (.circuitOpen name, pre.2)

/-! Helper lemmas shared by several claims. -/

/-- For values below 2 ^ 31 the usize-to-i32 cast is the identity. -/
theorem usize_as_i32_of_lt {n : ℕ} (h : n < 2 ^ 31) :
    usize_as_i32 n = (n : ℤ) := by
  have h32 : n % 2 ^ 32 = n :=
    Nat.mod_eq_of_lt (lt_trans h (by norm_num))
  unfold usize_as_i32
  rw [h32, if_pos h]

/-- On an operation that fails at every invocation with errors the
predicate (when present) accepts, the retry loop consumes its whole fuel:
starting at `attempt` with fuel `r` it performs `r + 1` further
invocations and returns the error of the last one. -/
theorem retryGo_all_fail {E T : Type} (pred : Option (E → Bool))
    (strat : BackoffStrategy) (errs : ℕ → E) (jitters : ℕ → ℚ)
    (hpred : ∀ p, pred = some p → ∀ i, p (errs i) = true) :
    ∀ r attempt,
      (retryGo (T := T) pred strat (fun i => .error (errs i)) jitters
          attempt r).result = .error (errs (attempt + r)) ∧
      (retryGo (T := T) pred strat (fun i => .error (errs i)) jitters
          attempt r).invocations = attempt + r + 1 := by
  intro r
  induction r with
  | zero => intro attempt; simp [retryGo]
  | succ r ih =>
    intro attempt
    have ih1 := ih (attempt + 1)
    have heq : attempt + 1 + r = attempt + (r + 1) := by omega
    rw [heq] at ih1
    cases pred with
    | none => simp [retryGo, ih1.1, ih1.2]
    | some p =>
      have hp : p (errs attempt) = true := hpred p rfl attempt
      simp [retryGo, hp, ih1.1, ih1.2]

/-! Claim C1. -/

/-- Executor exhibiting the gap in claim C1: max_retries is 1, but its
retry_if predicate rejects every error. -/
def c1Exec : RetryExecutor ℕ := ⟨1, .Fixed ⟨0⟩, some (fun _ => false)⟩

/-- C1 counterexample: the claim quantifies over every RetryExecutor with
max_retries = n, but an executor whose retry_if predicate rejects the
errors stops after a single invocation, not n + 1 = 2. -/
theorem c1_counterexample :
    ¬ ((c1Exec.retry (T := ℕ) (fun _ => .error 7) (fun _ => 0)).invocations
        = c1Exec.max_retries + 1) := by
  decide

/-- C1 (amended): for every RetryExecutor whose retry_if predicate is
absent or accepts every error the operation produces, and every operation
that fails on every invocation, retry terminates (it is a total function
of the fuelled loop) and invokes the operation exactly max_retries + 1
times, returning the error of the last invocation. -/
theorem c1_retry_budget {E T : Type} (n : ℕ) (strat : BackoffStrategy)
    (pred : Option (E → Bool)) (errs : ℕ → E) (jitters : ℕ → ℚ)
    (hpred : ∀ p, pred = some p → ∀ i, p (errs i) = true) :
    (RetryExecutor.retry (T := T) ⟨n, strat, pred⟩
        (fun i => .error (errs i)) jitters).result = .error (errs n) ∧
    (RetryExecutor.retry (T := T) ⟨n, strat, pred⟩
        (fun i => .error (errs i)) jitters).invocations = n + 1 := by
  have h := retryGo_all_fail (T := T) pred strat errs jitters hpred n 0
  simpa [RetryExecutor.retry] using h

/-- C1 witness: with max_retries = 3, no predicate and an operation whose
i-th invocation fails with error i, retry returns error 3 after exactly 4
invocations. -/
theorem c1_retry_budget_witness :
    (RetryExecutor.retry (T := ℕ) ⟨3, .Fixed ⟨0⟩, none⟩
        (fun i => .error i) (fun _ => 0)).result = .error 3 ∧
    (RetryExecutor.retry (T := ℕ) ⟨3, .Fixed ⟨0⟩, none⟩
        (fun i => .error i) (fun _ => 0)).invocations = 3 + 1 :=
  c1_retry_budget 3 (.Fixed ⟨0⟩) none (fun i => i) (fun _ => 0)
    (fun p hp => by cases hp)

/-! Claim C8. -/

/-- C8: with a retry_if predicate present, max_retries > 0 and a first
invocation failing with an error the predicate rejects, retry returns that
error immediately: exactly one invocation and no backoff delay slept. -/
theorem c8_retry_predicate {E T : Type} (n : ℕ) (strat : BackoffStrategy)
    (p : E → Bool) (op : ℕ → Except E T) (e : E) (jitters : ℕ → ℚ)
    (hn : 0 < n) (hop : op 0 = .error e) (hp : p e = false) :
    (RetryExecutor.retry ⟨n, strat, some p⟩ op jitters).result = .error e ∧
    (RetryExecutor.retry ⟨n, strat, some p⟩ op jitters).invocations = 1 ∧
    (RetryExecutor.retry ⟨n, strat, some p⟩ op jitters).delays = [] := by
  obtain ⟨m, rfl⟩ : ∃ m, n = m + 1 := ⟨n - 1, by omega⟩
  simp [RetryExecutor.retry, retryGo, hop, hp]

/-- C8 witness: max_retries 2, a predicate rejecting error 5, an operation
failing with error 5 on every invocation: one invocation, error 5 back,
no delay. -/
theorem c8_retry_predicate_witness :
    (RetryExecutor.retry (T := ℕ) ⟨2, .Fixed ⟨9⟩, some (fun e => e != 5)⟩
        (fun _ => .error 5) (fun _ => 0)).result = .error 5 ∧
    (RetryExecutor.retry (T := ℕ) ⟨2, .Fixed ⟨9⟩, some (fun e => e != 5)⟩
        (fun _ => .error 5) (fun _ => 0)).invocations = 1 ∧
    (RetryExecutor.retry (T := ℕ) ⟨2, .Fixed ⟨9⟩, some (fun e => e != 5)⟩
        (fun _ => .error 5) (fun _ => 0)).delays = [] :=
  c8_retry_predicate 2 (.Fixed ⟨9⟩) (fun e => e != 5) (fun _ => .error 5) 5
    (fun _ => 0) (by decide) rfl (by decide)

/-! Claim C9. -/

/-- C9 counterexample: the default executor built by new_exponential has
max_retries = 3, so an always-failing operation is invoked 4 times, not
the 3 total invocations the claim states. -/
theorem c9_counterexample :
    ¬ (((RetryExecutor.new_exponential ℕ).retry (T := ℕ)
        (fun _ => .error 0) (fun _ => 0)).invocations = 3) := by
  have h := retryGo_all_fail (T := ℕ) none (.Exponential .new)
    (fun _ => (0 : ℕ)) (fun _ => 0) (fun p hp => by cases hp) 3 0
  have h2 : ((RetryExecutor.new_exponential ℕ).retry (T := ℕ)
      (fun _ => .error 0) (fun _ => 0)).invocations = 4 := by
    simpa [RetryExecutor.retry, RetryExecutor.new_exponential] using h.2
  omega

/-- C9 (amended): the convenience constructors of RetryExecutor and
RetryPolicy default to the finite bound max_retries = 3, which means 4
total invocations (1 attempt plus 3 retries): without with_max_retries, a
retry of an always-failing operation invokes the operation exactly 4
times before returning the failure. -/
theorem c9_default_budget {E T : Type} (errs : ℕ → E) (jitters : ℕ → ℚ)
    (d : ℕ) :
    (RetryExecutor.new_exponential E).max_retries = 3 ∧
    (RetryExecutor.new_linear E).max_retries = 3 ∧
    (RetryExecutor.new_fixed E d).max_retries = 3 ∧
    RetryPolicy.new_exponential.max_retries = 3 ∧
    RetryPolicy.new_linear.max_retries = 3 ∧
    (RetryPolicy.new_fixed d).max_retries = 3 ∧
    (RetryPolicy.new_exponential.executor E).max_retries = 3 ∧
    ((RetryExecutor.new_exponential E).retry (T := T)
        (fun i => .error (errs i)) jitters).invocations = 4 ∧
    ((RetryExecutor.new_linear E).retry (T := T)
        (fun i => .error (errs i)) jitters).invocations = 4 ∧
    ((RetryExecutor.new_fixed E d).retry (T := T)
        (fun i => .error (errs i)) jitters).invocations = 4 ∧
    ((RetryPolicy.new_linear.executor E).retry (T := T)
        (fun i => .error (errs i)) jitters).invocations = 4 := by
  have hnone : ∀ p : E → Bool, (none : Option (E → Bool)) = some p →
      ∀ i, p (errs i) = true := fun p hp => by cases hp
  refine ⟨rfl, rfl, rfl, rfl, rfl, rfl, rfl, ?_, ?_, ?_, ?_⟩
  · have h := retryGo_all_fail (T := T) none (.Exponential .new) errs
      jitters hnone 3 0
    simpa [RetryExecutor.retry, RetryExecutor.new_exponential] using h.2
  · have h := retryGo_all_fail (T := T) none (.Linear .new) errs
      jitters hnone 3 0
    simpa [RetryExecutor.retry, RetryExecutor.new_linear] using h.2
  · have h := retryGo_all_fail (T := T) none (.Fixed (.new d)) errs
      jitters hnone 3 0
    simpa [RetryExecutor.retry, RetryExecutor.new_fixed] using h.2
  · have h := retryGo_all_fail (T := T) none (.Linear .new) errs
      jitters hnone 3 0
    simpa [RetryExecutor.retry, RetryPolicy.executor,
      RetryPolicy.new_linear, RetryExecutor.new_linear,
      RetryExecutor.with_max_retries] using h.2

/-! Helper lemmas for the backoff claims. -/

/-- Casting a natural number through the f64-to-u64 cast caps it at
U64_MAX. -/
theorem f64_as_u64_natCast (n : ℕ) : f64_as_u64 (n : ℚ) = min n U64_MAX := by
  simp [f64_as_u64]

/-- Bound transfer through the f64-to-u64 cast: a rational bound
5q ≤ 6m on a nonnegative q bounds the truncated value the same way. -/
theorem f64_as_u64_le_of_le {q : ℚ} {m : ℕ} (hq0 : 0 ≤ q)
    (h : 5 * q ≤ 6 * (m : ℚ)) : 5 * f64_as_u64 q ≤ 6 * m := by
  have h0 : (0 : ℤ) ≤ ⌊q⌋ := Int.floor_nonneg.mpr hq0
  have h1 : ((⌊q⌋.toNat : ℕ) : ℚ) ≤ q := by
    have h2 : ((⌊q⌋.toNat : ℤ) : ℚ) = ((⌊q⌋ : ℤ) : ℚ) := by
      rw [Int.toNat_of_nonneg h0]
    calc ((⌊q⌋.toNat : ℕ) : ℚ) = ((⌊q⌋ : ℤ) : ℚ) := by exact_mod_cast h2
      _ ≤ q := Int.floor_le q
  have h3 : 5 * ((⌊q⌋.toNat : ℕ) : ℚ) ≤ 6 * (m : ℚ) := by linarith
  have h4 : 5 * ⌊q⌋.toNat ≤ 6 * m := by exact_mod_cast h3
  calc 5 * f64_as_u64 q ≤ 5 * ⌊q⌋.toNat :=
        Nat.mul_le_mul_left 5 (min_le_left _ _)
    _ ≤ 6 * m := h4

/-- Unfolding of ExponentialBackoff::next_delay for a positive attempt
with jitter disabled. -/
theorem exp_next_delay_no_jitter (b : ExponentialBackoff) (attempt : ℕ)
    (jf : ℚ) (h : attempt ≠ 0) (hj : b.jitter = false) :
    b.next_delay attempt jf =
      min (f64_as_u64 ((b.initial_delay_ms : ℚ) *
        b.factor ^ usize_as_i32 attempt)) b.max_delay_ms := by
  simp [ExponentialBackoff.next_delay, h, hj]

/-- Unfolding of ExponentialBackoff::next_delay for a positive attempt
with jitter enabled. -/
theorem exp_next_delay_jitter (b : ExponentialBackoff) (attempt : ℕ)
    (jf : ℚ) (h : attempt ≠ 0) (hj : b.jitter = true) :
    b.next_delay attempt jf =
      f64_as_u64 (((min (f64_as_u64 ((b.initial_delay_ms : ℚ) *
        b.factor ^ usize_as_i32 attempt)) b.max_delay_ms : ℕ) : ℚ) * jf) := by
  simp [ExponentialBackoff.next_delay, h, hj]

/-! Claim C5. -/

/-- Exponential configuration whose initial delay exceeds its max delay,
exhibiting the gap in claim C5. -/
def c5Backoff : ExponentialBackoff := ⟨200, 100, 2, false⟩

/-- C5 counterexample: the claim includes configurations whose initial
delay exceeds the max delay, but ExponentialBackoff::next_delay returns
the initial delay uncapped at attempt 0: 200 > 100 = max. -/
theorem c5_counterexample :
    ¬ (c5Backoff.next_delay 0 1 ≤ c5Backoff.max_delay_ms) := by
  decide

/-- C5 (amended): next_delay is never below 0 (its codomain is ℕ) and is
bounded as follows: LinearBackoff is capped at its max delay on every
attempt; ExponentialBackoff is capped at its max delay on every positive
attempt when jitter is disabled, while with jitter enabled (drawn factor
in [0.8, 1.2)) the result can exceed the max delay by up to 20 percent
(5 * delay ≤ 6 * max); at attempt 0 ExponentialBackoff returns the
initial delay, which is not capped at the max delay. -/
theorem c5_delay_bounds (lb : LinearBackoff) (eb : ExponentialBackoff)
    (attempt : ℕ) (jf : ℚ) :
    lb.next_delay attempt ≤ lb.max_delay_ms ∧
    eb.next_delay 0 jf = eb.initial_delay_ms ∧
    (0 < attempt → eb.jitter = false →
      eb.next_delay attempt jf ≤ eb.max_delay_ms) ∧
    (0 < attempt → 4 / 5 ≤ jf → jf < 6 / 5 →
      5 * eb.next_delay attempt jf ≤ 6 * eb.max_delay_ms) := by
  refine ⟨min_le_right _ _, by simp [ExponentialBackoff.next_delay], ?_, ?_⟩
  · intro hatt hj
    rw [exp_next_delay_no_jitter eb attempt jf
      (Nat.pos_iff_ne_zero.mp hatt) hj]
    exact min_le_right _ _
  · intro hatt h08 h12
    have hne : attempt ≠ 0 := Nat.pos_iff_ne_zero.mp hatt
    have hjf0 : (0 : ℚ) ≤ jf := le_trans (by norm_num) h08
    cases hj : eb.jitter with
    | false =>
      rw [exp_next_delay_no_jitter eb attempt jf hne hj]
      have h1 : min (f64_as_u64 ((eb.initial_delay_ms : ℚ) *
          eb.factor ^ usize_as_i32 attempt)) eb.max_delay_ms ≤
          eb.max_delay_ms := min_le_right _ _
      omega
    | true =>
      rw [exp_next_delay_jitter eb attempt jf hne hj]
      set c : ℕ := min (f64_as_u64 ((eb.initial_delay_ms : ℚ) *
        eb.factor ^ usize_as_i32 attempt)) eb.max_delay_ms with hc
      have hcm : c ≤ eb.max_delay_ms := min_le_right _ _
      apply f64_as_u64_le_of_le (mul_nonneg (Nat.cast_nonneg c) hjf0)
      have hcq : (c : ℚ) ≤ (eb.max_delay_ms : ℚ) := by exact_mod_cast hcm
      have hc0 : (0 : ℚ) ≤ (c : ℚ) := Nat.cast_nonneg c
      nlinarith

/-- C5 witness: the default linear configuration at attempt 0 and the
default exponential configuration at attempts 0 and 1 with jitter
draw 1. -/
theorem c5_delay_bounds_witness :
    LinearBackoff.new.next_delay 0 ≤ LinearBackoff.new.max_delay_ms ∧
    ExponentialBackoff.new.next_delay 0 1 =
      ExponentialBackoff.new.initial_delay_ms ∧
    ExponentialBackoff.new.next_delay 1 1 ≤
      ExponentialBackoff.new.max_delay_ms ∧
    5 * ExponentialBackoff.new.next_delay 1 1 ≤
      6 * ExponentialBackoff.new.max_delay_ms :=
  ⟨(c5_delay_bounds LinearBackoff.new ExponentialBackoff.new 0 1).1,
   (c5_delay_bounds LinearBackoff.new ExponentialBackoff.new 1 1).2.1,
   (c5_delay_bounds LinearBackoff.new ExponentialBackoff.new 1 1).2.2.1
     (by norm_num) rfl,
   (c5_delay_bounds LinearBackoff.new ExponentialBackoff.new 1 1).2.2.2
     (by norm_num) (by norm_num) (by norm_num)⟩

/-! Claim C6. -/

/-- Exponential configuration with jitter enabled, exhibiting the gap in
claim C6. -/
def c6Backoff : ExponentialBackoff := ⟨100, 10000, 2, true⟩

/-- Evaluation of the jittered delay of c6Backoff at attempt 1: the
capped delay is 200 and the drawn factor scales it. -/
theorem c6Backoff_eval (jf : ℚ) :
    c6Backoff.next_delay 1 jf = f64_as_u64 ((200 : ℚ) * jf) := by
  rw [exp_next_delay_jitter c6Backoff 1 jf (by norm_num) rfl]
  have hz : usize_as_i32 1 = 1 := usize_as_i32_of_lt (by norm_num)
  have h1 : ((c6Backoff.initial_delay_ms : ℚ) *
      c6Backoff.factor ^ usize_as_i32 1) = ((200 : ℕ) : ℚ) := by
    rw [hz]
    show (100 : ℚ) * (2 : ℚ) ^ (1 : ℤ) = ((200 : ℕ) : ℚ)
    norm_num
  have h2 : min (f64_as_u64 ((c6Backoff.initial_delay_ms : ℚ) *
      c6Backoff.factor ^ usize_as_i32 1)) c6Backoff.max_delay_ms = 200 := by
    rw [h1, f64_as_u64_natCast]
    norm_num [U64_MAX, c6Backoff]
  rw [h2]
  norm_num

/-- C6 counterexample: with jitter enabled, two calls with the same
configuration and the same attempt can return different durations: the
draws 1 and 11/10 both lie in [0.8, 1.2) yet give 200ms and 220ms. -/
theorem c6_counterexample :
    c6Backoff.next_delay 1 1 ≠ c6Backoff.next_delay 1 (11 / 10) ∧
    (4 / 5 : ℚ) ≤ 1 ∧ (1 : ℚ) < 6 / 5 ∧
    (4 / 5 : ℚ) ≤ 11 / 10 ∧ (11 / 10 : ℚ) < 6 / 5 := by
  refine ⟨?_, by norm_num, by norm_num, by norm_num, by norm_num⟩
  rw [c6Backoff_eval 1, c6Backoff_eval (11 / 10)]
  have h1 : ((200 : ℚ) * 1) = ((200 : ℕ) : ℚ) := by norm_num
  have h2 : ((200 : ℚ) * (11 / 10)) = ((220 : ℕ) : ℚ) := by norm_num
  rw [h1, h2, f64_as_u64_natCast, f64_as_u64_natCast]
  norm_num [U64_MAX]

/-- C6 (amended): next_delay is total (a total function in this model,
with no panicking operation) and is deterministic for Fixed, Linear, and
Exponential with jitter disabled: the jitter draw does not influence the
result. With jitter enabled the result depends on the random draw. -/
theorem c6_no_jitter_determinism (eb : ExponentialBackoff)
    (lb : LinearBackoff) (fb : FixedBackoff) (attempt : ℕ) (jf1 jf2 : ℚ)
    (hj : eb.jitter = false) :
    eb.next_delay attempt jf1 = eb.next_delay attempt jf2 ∧
    BackoffStrategy.next_delay (.Linear lb) attempt jf1 =
      BackoffStrategy.next_delay (.Linear lb) attempt jf2 ∧
    BackoffStrategy.next_delay (.Fixed fb) attempt jf1 =
      BackoffStrategy.next_delay (.Fixed fb) attempt jf2 := by
  refine ⟨?_, rfl, rfl⟩
  by_cases h0 : attempt = 0
  · simp [ExponentialBackoff.next_delay, h0]
  · rw [exp_next_delay_no_jitter eb attempt jf1 h0 hj,
      exp_next_delay_no_jitter eb attempt jf2 h0 hj]

/-- C6 witness: the default exponential configuration (jitter disabled)
gives the same delay for the draws 1 and 11/10. -/
theorem c6_no_jitter_determinism_witness :
    ExponentialBackoff.new.next_delay 2 1 =
      ExponentialBackoff.new.next_delay 2 (11 / 10) ∧
    BackoffStrategy.next_delay (.Linear LinearBackoff.new) 2 1 =
      BackoffStrategy.next_delay (.Linear LinearBackoff.new) 2 (11 / 10) ∧
    BackoffStrategy.next_delay (.Fixed (FixedBackoff.new 5)) 2 1 =
      BackoffStrategy.next_delay (.Fixed (FixedBackoff.new 5)) 2 (11 / 10) :=
  c6_no_jitter_determinism ExponentialBackoff.new LinearBackoff.new
    (FixedBackoff.new 5) 2 1 (11 / 10) rfl

/-! Claim C7. -/

/-- The exponential configuration named by claim C7: initial 100ms,
max 10000ms, factor 2.0, jitter disabled. -/
def c7Backoff : ExponentialBackoff := ⟨100, 10000, 2, false⟩

/-- Closed form of c7Backoff.next_delay for positive attempts below
2 ^ 31 (where the i32 exponent cast is lossless). -/
theorem c7Backoff_eval (attempt : ℕ) (jf : ℚ) (h0 : 0 < attempt)
    (h31 : attempt < 2 ^ 31) :
    c7Backoff.next_delay attempt jf = min (100 * 2 ^ attempt) 10000 := by
  rw [exp_next_delay_no_jitter c7Backoff attempt jf
    (Nat.pos_iff_ne_zero.mp h0) rfl]
  rw [usize_as_i32_of_lt h31]
  have h1 : ((c7Backoff.initial_delay_ms : ℚ) *
      c7Backoff.factor ^ ((attempt : ℕ) : ℤ)) =
      ((100 * 2 ^ attempt : ℕ) : ℚ) := by
    show (100 : ℚ) * (2 : ℚ) ^ ((attempt : ℕ) : ℤ) =
      ((100 * 2 ^ attempt : ℕ) : ℚ)
    rw [zpow_natCast]
    push_cast
    ring
  rw [h1, f64_as_u64_natCast]
  show min (min (100 * 2 ^ attempt) U64_MAX) c7Backoff.max_delay_ms = _
  rw [min_assoc]
  have h2 : min U64_MAX (c7Backoff.max_delay_ms) = 10000 := by
    norm_num [U64_MAX, c7Backoff]
  rw [h2]

/-- C7 counterexample: the claim quantifies over every attempt > 0, but
the source casts the attempt to i32 before exponentiation, so at
attempt = 2 ^ 32 the exponent wraps to 0 and next_delay returns 100,
while min(initial * factor ^ attempt, max) is 10000. -/
theorem c7_counterexample :
    c7Backoff.next_delay (2 ^ 32) 1 ≠ min (100 * 2 ^ (2 ^ 32)) 10000 := by
  have hL : c7Backoff.next_delay (2 ^ 32) 1 = 100 := by
    rw [exp_next_delay_no_jitter c7Backoff (2 ^ 32) 1 (by norm_num) rfl]
    have hz : usize_as_i32 (2 ^ 32) = 0 := by
      unfold usize_as_i32
      norm_num
    rw [hz]
    have h1 : ((c7Backoff.initial_delay_ms : ℚ) *
        c7Backoff.factor ^ (0 : ℤ)) = ((100 : ℕ) : ℚ) := by
      show (100 : ℚ) * (2 : ℚ) ^ (0 : ℤ) = ((100 : ℕ) : ℚ)
      norm_num
    rw [h1, f64_as_u64_natCast]
    norm_num [U64_MAX, c7Backoff]
  have hR : min (100 * 2 ^ (2 ^ 32)) 10000 = 10000 := by
    apply min_eq_right
    have h7 : (2 : ℕ) ^ 7 ≤ 2 ^ (2 ^ 32) :=
      Nat.pow_le_pow_right (by norm_num) (by norm_num)
    calc (10000 : ℕ) ≤ 100 * 2 ^ 7 := by norm_num
      _ ≤ 100 * 2 ^ (2 ^ 32) := Nat.mul_le_mul_left 100 h7
  rw [hL, hR]
  norm_num

/-- C7 (amended): with jitter disabled, next_delay(0) returns the initial
delay for every exponential configuration; for the configuration
initial=100ms, factor=2.0, max=10000ms and every attempt with
0 < attempt < 2 ^ 31 (the range on which the i32 exponent cast is
lossless), next_delay(attempt) = min(100 * 2 ^ attempt, 10000); in
particular next_delay(1)=200, next_delay(2)=400, and
next_delay(10) ≤ 10000. -/
theorem c7_exponential_law (b : ExponentialBackoff) (jf : ℚ) (attempt : ℕ)
    (h0 : 0 < attempt) (h31 : attempt < 2 ^ 31) :
    b.next_delay 0 jf = b.initial_delay_ms ∧
    c7Backoff.next_delay attempt jf = min (100 * 2 ^ attempt) 10000 ∧
    c7Backoff.next_delay 1 jf = 200 ∧
    c7Backoff.next_delay 2 jf = 400 ∧
    c7Backoff.next_delay 10 jf ≤ 10000 := by
  refine ⟨by simp [ExponentialBackoff.next_delay],
    c7Backoff_eval attempt jf h0 h31, ?_, ?_, ?_⟩
  · rw [c7Backoff_eval 1 jf (by norm_num) (by norm_num)]
    norm_num
  · rw [c7Backoff_eval 2 jf (by norm_num) (by norm_num)]
    norm_num
  · rw [c7Backoff_eval 10 jf (by norm_num) (by norm_num)]
    norm_num

/-- C7 witness: the amended law instantiated at attempt 3 with jitter
draw 1, giving delay 800ms. -/
theorem c7_exponential_law_witness :
    ExponentialBackoff.new.next_delay 0 1 =
      ExponentialBackoff.new.initial_delay_ms ∧
    c7Backoff.next_delay 3 1 = min (100 * 2 ^ 3) 10000 ∧
    c7Backoff.next_delay 1 1 = 200 ∧
    c7Backoff.next_delay 2 1 = 400 ∧
    c7Backoff.next_delay 10 1 ≤ 10000 :=
  c7_exponential_law ExponentialBackoff.new 1 3 (by norm_num) (by norm_num)

/-! Claim C2. -/

/-- C2: a breaker with failure_threshold 2 starting Closed trips to Open
on the second failed execute call (the trip fires exactly when the pruned
within-window failure count reaches the threshold), and a third call made
before the reset timeout fails fast with the circuit-open failure
carrying the breaker name, leaving the state untouched and returning the
same result for every operation (the operation is never consulted). -/
theorem c2_circuit_trip {E T : Type} (name : String)
    (W R t_init t0 t1 t2 t3 t4 t5 : ℕ) (e1 e2 : E) (op : Except E T)
    (hwin : t3 - W ≤ t1) (hfast : t4 - t3 < R) :
    execute (T := T) name ⟨⟨2, W, R⟩, .Closed, [], t_init⟩ (.error e1) t0 t1
      = (.opError e1, ⟨⟨2, W, R⟩, .Closed, [t1], t_init⟩) ∧
    execute (T := T) name ⟨⟨2, W, R⟩, .Closed, [t1], t_init⟩ (.error e2)
        t2 t3
      = (.opError e2, ⟨⟨2, W, R⟩, .Open, [t1, t3], t3⟩) ∧
    execute name ⟨⟨2, W, R⟩, .Open, [t1, t3], t3⟩ op t4 t5
      = (.circuitOpen name, ⟨⟨2, W, R⟩, .Open, [t1, t3], t3⟩) ∧
    (∀ (inner : CircuitBreakerInner) (now : ℕ), inner.state = .Closed →
      ((inner.on_failure now).state = .Open ↔
        inner.config.failure_threshold ≤
          ((inner.failures ++ [now]).filter
            (fun t => now - inner.config.failure_window_ms ≤ t)).length)) := by
  refine ⟨?_, ?_, ?_, ?_⟩
  · simp [execute, can_proceed, CircuitBreakerInner.update_state,
      CircuitBreakerInner.on_failure, Nat.sub_le]
  · have hwin2 : t3 ≤ t1 + W := by omega
    simp [execute, can_proceed, CircuitBreakerInner.update_state,
      CircuitBreakerInner.on_failure, Nat.sub_le, hwin2]
  · have hup : (⟨⟨2, W, R⟩, .Open, [t1, t3], t3⟩ :
        CircuitBreakerInner).update_state t4
        = ⟨⟨2, W, R⟩, .Open, [t1, t3], t3⟩ := by
      simp [CircuitBreakerInner.update_state]
      omega
    simp [execute, can_proceed, hup]
  · intro inner now h
    have hhalf : ¬ (inner.state = CircuitState.HalfOpen) := by
      rw [h]
      exact fun hc => by cases hc
    unfold CircuitBreakerInner.on_failure
    rw [if_neg hhalf]
    simp only []
    split
    · next hcond => exact iff_of_true rfl hcond.2
    · next hcond =>
        exact iff_of_false (by simp [h]) (fun hl => hcond ⟨h, hl⟩)

/-- C2 witness: window 60000ms, reset timeout 30000ms, failures at
instants 10 and 20, third call at instant 25. -/
theorem c2_circuit_trip_witness :
    execute (T := ℕ) "db" ⟨⟨2, 60000, 30000⟩, .Closed, [], 0⟩
        (.error (1 : ℕ)) 9 10
      = (.opError 1, ⟨⟨2, 60000, 30000⟩, .Closed, [10], 0⟩) ∧
    execute (T := ℕ) "db" ⟨⟨2, 60000, 30000⟩, .Closed, [10], 0⟩
        (.error (2 : ℕ)) 19 20
      = (.opError 2, ⟨⟨2, 60000, 30000⟩, .Open, [10, 20], 20⟩) ∧
    execute (E := ℕ) "db" ⟨⟨2, 60000, 30000⟩, .Open, [10, 20], 20⟩
        (.ok (7 : ℕ)) 25 26
      = (.circuitOpen "db", ⟨⟨2, 60000, 30000⟩, .Open, [10, 20], 20⟩) ∧
    (∀ (inner : CircuitBreakerInner) (now : ℕ), inner.state = .Closed →
      ((inner.on_failure now).state = .Open ↔
        inner.config.failure_threshold ≤
          ((inner.failures ++ [now]).filter
            (fun t => now - inner.config.failure_window_ms ≤ t)).length)) :=
  c2_circuit_trip (E := ℕ) "db" 60000 30000 0 9 10 19 20 25 26 1 2
    (.ok 7) (by norm_num) (by norm_num)

/-! Claim C3. -/

/-- C3: a breaker Open since t_last probed at t_pre. Once the reset
timeout has elapsed, the pre-check moves it to HalfOpen and the operation
runs: a successful probe closes the circuit and clears the failure
history, a failed probe reopens it with the transition time restamped
(the timeout restarts). Before the timeout has elapsed, the call fails
fast and the whole state is untouched. -/
theorem c3_circuit_recovery {E T : Type} (name : String)
    (cfg : CircuitBreakerConfig) (fs : List ℕ) (t_last t_pre t_post : ℕ)
    (v : T) (e : E) (op : Except E T) :
    (cfg.reset_timeout_ms ≤ t_pre - t_last →
      ((⟨cfg, .Open, fs, t_last⟩ :
          CircuitBreakerInner).update_state t_pre).state = .HalfOpen ∧
      execute (E := E) name ⟨cfg, .Open, fs, t_last⟩ (.ok v) t_pre t_post
        = (.ok v, ⟨cfg, .Closed, [], t_post⟩) ∧
      execute (T := T) name ⟨cfg, .Open, fs, t_last⟩ (.error e) t_pre t_post
        = (.opError e, ⟨cfg, .Open, fs, t_post⟩)) ∧
    (t_pre - t_last < cfg.reset_timeout_ms →
      execute (T := T) name ⟨cfg, .Open, fs, t_last⟩ op t_pre t_post
        = (.circuitOpen name, ⟨cfg, .Open, fs, t_last⟩)) := by
  constructor
  · intro h
    have hup : (⟨cfg, .Open, fs, t_last⟩ :
        CircuitBreakerInner).update_state t_pre
        = ⟨cfg, .HalfOpen, fs, t_pre⟩ := by
      simp [CircuitBreakerInner.update_state, h]
    refine ⟨by rw [hup], ?_, ?_⟩
    · simp [execute, can_proceed, hup, CircuitBreakerInner.on_success]
    · simp [execute, can_proceed, hup, CircuitBreakerInner.on_failure]
  · intro h
    have hup : (⟨cfg, .Open, fs, t_last⟩ :
        CircuitBreakerInner).update_state t_pre
        = ⟨cfg, .Open, fs, t_last⟩ := by
      simp [CircuitBreakerInner.update_state]
      omega
    simp [execute, can_proceed, hup]

/-- C3 witness: default-configured breaker Open since instant 0, probed
at 30000 (successful probe, then failed probe) and at 29999 (fail
fast). -/
theorem c3_circuit_recovery_witness :
    (((⟨⟨5, 60000, 30000⟩, .Open, [10], 0⟩ :
        CircuitBreakerInner).update_state 30000).state = .HalfOpen ∧
      execute (E := ℕ) "db" ⟨⟨5, 60000, 30000⟩, .Open, [10], 0⟩
          (.ok (1 : ℕ)) 30000 30001
        = (.ok 1, ⟨⟨5, 60000, 30000⟩, .Closed, [], 30001⟩) ∧
      execute (T := ℕ) "db" ⟨⟨5, 60000, 30000⟩, .Open, [10], 0⟩
          (.error (2 : ℕ)) 30000 30001
        = (.opError 2, ⟨⟨5, 60000, 30000⟩, .Open, [10], 30001⟩)) ∧
    execute (T := ℕ) "db" ⟨⟨5, 60000, 30000⟩, .Open, [10], 0⟩
        (.error (2 : ℕ)) 29999 30000
      = (.circuitOpen "db", ⟨⟨5, 60000, 30000⟩, .Open, [10], 0⟩) :=
  ⟨(c3_circuit_recovery "db" ⟨5, 60000, 30000⟩ [10] 0 30000 30001 1 2
      (.error 2)).1 (by norm_num),
   (c3_circuit_recovery (E := ℕ) "db" ⟨5, 60000, 30000⟩ [10] 0 29999 30000
      1 2 (.error 2)).2 (by norm_num)⟩

/-! Claim C4. -/

/-- Breaker Open since instant 0 with reset timeout 500ms, exhibiting the
gap in claim C4. -/
def c4Inner : CircuitBreakerInner := ⟨⟨2, 1000, 500⟩, .Open, [], 0⟩

/-- C4 counterexample: the pre-check at instant 500 trips Open to
HalfOpen and proceeds, but a second pre-check performed at instant 501,
while the breaker is still HalfOpen and before any probe outcome has been
recorded, also proceeds, and an execute call made in that state invokes
its operation (it returns the operation outcome, not the circuit-open
failure). The code blocks calls only while the state is Open, so the
probe is not restricted to the call that triggered the transition. -/
theorem c4_counterexample :
    (can_proceed c4Inner 500).1 = true ∧
    (can_proceed c4Inner 500).2.state = .HalfOpen ∧
    (can_proceed (can_proceed c4Inner 500).2 501).1 = true ∧
    (can_proceed (can_proceed c4Inner 500).2 501).2.state = .HalfOpen ∧
    execute (E := ℕ) "svc" (can_proceed c4Inner 500).2 (.ok (7 : ℕ)) 501 502
      = (.ok 7, ⟨⟨2, 1000, 500⟩, .Closed, [], 502⟩) := by
  decide

/-- C4 (amended): while the breaker is HalfOpen, every execute call
passes the pre-check (the pre-check blocks only the Open state), and
whichever outcome is recorded first while HalfOpen is decisive: a success
closes the circuit and clears the failure history, a failure reopens it
and restamps the transition time. -/
theorem c4_halfopen_probe {E T : Type} (name : String)
    (inner : CircuitBreakerInner) (now t_post : ℕ) (v : T) (e : E)
    (h : inner.state = .HalfOpen) :
    (can_proceed inner now).1 = true ∧
    (can_proceed inner now).2 = inner ∧
    execute (E := E) name inner (.ok v) now t_post
      = (.ok v, ⟨inner.config, .Closed, [], t_post⟩) ∧
    execute (T := T) name inner (.error e) now t_post
      = (.opError e, ⟨inner.config, .Open, inner.failures, t_post⟩) := by
  have hup : inner.update_state now = inner := by
    simp [CircuitBreakerInner.update_state, h]
  refine ⟨by simp [can_proceed, hup, h], by simp [can_proceed, hup], ?_, ?_⟩
  · simp [execute, can_proceed, hup, h, CircuitBreakerInner.on_success]
  · simp [execute, can_proceed, hup, h, CircuitBreakerInner.on_failure]

/-- C4 witness: a concrete HalfOpen breaker probed at instant 600. -/
theorem c4_halfopen_probe_witness :
    (can_proceed ⟨⟨2, 1000, 500⟩, .HalfOpen, [3], 500⟩ 600).1 = true ∧
    (can_proceed ⟨⟨2, 1000, 500⟩, .HalfOpen, [3], 500⟩ 600).2
      = ⟨⟨2, 1000, 500⟩, .HalfOpen, [3], 500⟩ ∧
    execute (E := ℕ) "svc" ⟨⟨2, 1000, 500⟩, .HalfOpen, [3], 500⟩
        (.ok (7 : ℕ)) 600 601
      = (.ok 7, ⟨⟨2, 1000, 500⟩, .Closed, [], 601⟩) ∧
    execute (T := ℕ) "svc" ⟨⟨2, 1000, 500⟩, .HalfOpen, [3], 500⟩
        (.error (9 : ℕ)) 600 601
      = (.opError 9, ⟨⟨2, 1000, 500⟩, .Open, [3], 601⟩) :=
  c4_halfopen_probe "svc" ⟨⟨2, 1000, 500⟩, .HalfOpen, [3], 500⟩ 600 601
    7 9 rfl

/-! Claim C10. -/

/-- C10: an execute call in the Closed state whose operation succeeds
leaves the shared state exactly as it was (no pruning, no clearing, no
last_state_change update); on_success is the identity in every state
other than HalfOpen, and the failure history is cleared by reset (and by
the HalfOpen to Closed transition, proved in the C4 theorem). -/
theorem c10_closed_success_frame {E T : Type} (name : String)
    (inner : CircuitBreakerInner) (v : T) (t_pre t_post now : ℕ)
    (h : inner.state = .Closed) :
    execute (E := E) name inner (.ok v) t_pre t_post = (.ok v, inner) ∧
    (∀ (i : CircuitBreakerInner) (t : ℕ), i.state ≠ .HalfOpen →
      i.on_success t = i) ∧
    (inner.reset now).failures = [] ∧
    (inner.reset now).state = .Closed := by
  have hos : ∀ (i : CircuitBreakerInner) (t : ℕ), i.state ≠ .HalfOpen →
      i.on_success t = i := by
    intro i t hi
    simp [CircuitBreakerInner.on_success, hi]
  have hup : inner.update_state t_pre = inner := by
    simp [CircuitBreakerInner.update_state, h]
  refine ⟨?_, hos, rfl, rfl⟩
  simp [execute, can_proceed, hup, h,
    hos inner t_post (by rw [h]; exact fun hc => by cases hc)]

/-- C10 witness: a Closed breaker with two recorded failures and a
successful call at instants 40/41: nothing changes. -/
theorem c10_closed_success_frame_witness :
    execute (E := ℕ) "db" ⟨⟨5, 60000, 30000⟩, .Closed, [10, 20], 0⟩
        (.ok (7 : ℕ)) 40 41
      = (.ok 7, ⟨⟨5, 60000, 30000⟩, .Closed, [10, 20], 0⟩) ∧
    (∀ (i : CircuitBreakerInner) (t : ℕ), i.state ≠ .HalfOpen →
      i.on_success t = i) ∧
    ((⟨⟨5, 60000, 30000⟩, .Closed, [10, 20], 0⟩ :
        CircuitBreakerInner).reset 99).failures = [] ∧
    ((⟨⟨5, 60000, 30000⟩, .Closed, [10, 20], 0⟩ :
        CircuitBreakerInner).reset 99).state = .Closed :=
  c10_closed_success_frame "db" ⟨⟨5, 60000, 30000⟩, .Closed, [10, 20], 0⟩
    7 40 41 99 rfl

end ErrorForge
